import Mathlib

/-!
Shallow embedding of the PDF marketing image application (src/src/App.tsx).

The application keeps a list of ingested PDF documents, a map from file
name to generated composite image, and three layout parameters.  The
composition engine lays out up to three selected page rasters over a
background on a fixed 1280 by 720 canvas.  Numeric canvas arithmetic is
modelled over the rationals; rotation angles, which the source computes
as floating point multiples of Math.PI, are stored as the rational
coefficient of pi and materialised over the reals by SlotSpot.angleRad.
-/

namespace PdfApp

/-- One rasterized page, mirroring `interface PDFPage { pageNum; imageUrl }`
(App.tsx lines 15-18). -/
structure PDFPage where
  pageNum : ℕ
  imageUrl : String
  deriving DecidableEq

/-- The per-document slot selection, mirroring the `selectedPages` field
`{ left; center; right }` of `interface PDFFile`, each slot holding a page
number or null (App.tsx lines 23-27). -/
structure Selection where
  left : Option ℕ
  center : Option ℕ
  right : Option ℕ
  deriving DecidableEq

/-- A processed document, mirroring `interface PDFFile` (App.tsx lines
20-28).  Of the browser `File` value only the name is relevant to the
model (it keys the output map and appears in messages). -/
structure PDFFile where
  fileName : String
  pages : List PDFPage
  selectedPages : Selection
  deriving DecidableEq

/-- The three collage slots.  The source keeps them as indices 0, 1, 2 of
the `positions` array built in the order left, center, right
(App.tsx lines 111-115). -/
inductive SlotId where
  | left
  | center
  | right
  deriving DecidableEq

/-- Read the slot of a selection record. -/
def Selection.slot (sel : Selection) : SlotId → Option ℕ
  | SlotId.left => sel.left
  | SlotId.center => sel.center
  | SlotId.right => sel.right

/-- Overwrite one slot of a selection record, mirroring
`newFiles[pdfIndex].selectedPages[position] = pageNum` (App.tsx line 256). -/
def Selection.setSlot (sel : Selection) : SlotId → ℕ → Selection
  | SlotId.left, n => { sel with left := some n }
  | SlotId.center, n => { sel with center := some n }
  | SlotId.right, n => { sel with right := some n }

/-- Fixed canvas width, `canvas.width = 1280` (App.tsx line 60). -/
def canvasWidth : ℚ := 1280

/-- Fixed canvas height, `canvas.height = 720` (App.tsx line 61). -/
def canvasHeight : ℚ := 720

/-- One slot transform of the `positions` array (App.tsx lines 111-115):
an anchor point (x, y) and a rotation angle.  The source stores the angle
as `±tiltAngle * Math.PI / 180`; the model stores the rational coefficient
of pi, so the angle in radians is `angleCoeff * pi` (see SlotSpot.angleRad). -/
structure SlotSpot where
  angleCoeff : ℚ
  x : ℚ
  y : ℚ
  deriving DecidableEq

/-- The rotation angle of a slot in radians. -/
noncomputable def SlotSpot.angleRad (s : SlotSpot) : ℝ := (s.angleCoeff : ℝ) * Real.pi

/-- Slot geometry of the composition engine (App.tsx lines 106-115):
`pageWidth = pageSize`, `pageHeight = pageSize * 1.5`,
`centerX = canvas.width / 2`, `centerY = canvas.height / 2 - pageHeight / 2`,
then the three entries of the `positions` array in source order. -/
def positions (pageSize tiltAngle overlap : ℚ) : SlotId → SlotSpot :=
  let pageWidth := pageSize
  let pageHeight := pageSize * 1.5
  let centerX := canvasWidth / 2
  let centerY := canvasHeight / 2 - pageHeight / 2
  fun s =>
    match s with
    | SlotId.left => ⟨-tiltAngle / 180, centerX - pageWidth * 1.5 + overlap, centerY⟩
    | SlotId.center => ⟨0, centerX - pageWidth / 2, centerY⟩
    | SlotId.right => ⟨tiltAngle / 180, centerX + pageWidth / 2 - overlap, centerY⟩

/-- Resolution of a slot to a page raster (App.tsx lines 96-104): a null
selection returns null (the JS guard `if (!pageNum) return null` also
drops a selected page number 0, which is falsy), otherwise the first page
of the document whose `pageNum` matches is looked up and its `imageUrl`
returned; a missing page also resolves to null. -/
def resolvePage (f : PDFFile) (s : SlotId) : Option String :=
  match f.selectedPages.slot s with
  | none => none
  | some n =>
    if n = 0 then none
    else
      match f.pages.find? (fun p => p.pageNum == n) with
      | none => none
      | some p => some p.imageUrl

/-- The fixed draw order of the engine: the source iterates the indices
`[0, 2, 1]` of the positions array `[left, center, right]`, hence left,
then right, then center (App.tsx line 118). -/
def drawOrder : List SlotId := [SlotId.left, SlotId.right, SlotId.center]

/-- The slots actually drawn for a document: the draw loop skips a slot
whose resolved page raster is null (`if (pageImages[i])`, App.tsx line 119)
and draws the rest in the fixed order. -/
def drawnSlots (f : PDFFile) : List SlotId :=
  drawOrder.filter (fun s => (resolvePage f s).isSome)

/-- Cover-fit of the background (App.tsx lines 75-92). -/
structure BgFit where
  drawWidth : ℚ
  drawHeight : ℚ
  offsetX : ℚ
  offsetY : ℚ
  deriving DecidableEq

/-- Background cover-fit computation (App.tsx lines 75-91): compare the
background aspect ratio with the canvas one; when the background is
relatively wider, match heights and center horizontally, otherwise match
widths and center vertically. -/
def fitBackground (bgWidth bgHeight : ℚ) : BgFit :=
  let canvasAspect := canvasWidth / canvasHeight
  let imgAspect := bgWidth / bgHeight
  if canvasAspect < imgAspect then
    let drawHeight := canvasHeight
    let drawWidth := bgWidth * (canvasHeight / bgHeight)
    ⟨drawWidth, drawHeight, (canvasWidth - drawWidth) / 2, 0⟩
  else
    let drawWidth := canvasWidth
    let drawHeight := bgHeight * (canvasWidth / bgWidth)
    ⟨drawWidth, drawHeight, 0, (canvasHeight - drawHeight) / 2⟩

/-- The default selection seeded at ingestion time (App.tsx lines 181-185):
`left = pages.length >= 2 ? 2 : 1`, `center = 1`,
`right = pages.length >= 3 ? 3 : (pages.length >= 2 ? 2 : 1)`. -/
def defaultSelection (pages : List PDFPage) : Selection where
  left := some (if 2 ≤ pages.length then 2 else 1)
  center := some 1
  right := some (if 3 ≤ pages.length then 3 else if 2 ≤ pages.length then 2 else 1)

/-- Page rasterization loop of `onDrop` (App.tsx lines 163-176): pages are
rendered for i = 1 to totalPages; when the scratch canvas yields no 2d
context the page is skipped (`if (!context) continue`), abstracted by the
`skip` predicate; `render` abstracts `canvas.toDataURL` for a page. -/
def rasterizePages (total : ℕ) (skip : ℕ → Bool) (render : ℕ → String) : List PDFPage :=
  (List.range total).filterMap (fun i =>
    if skip (i + 1) then none else some ⟨i + 1, render (i + 1)⟩)

/-- Successful ingestion of one document (App.tsx lines 157-186): the page
list is rasterized and the default selection is seeded from it. -/
def ingestDocument (name : String) (total : ℕ) (skip : ℕ → Bool)
    (render : ℕ → String) : PDFFile :=
  let pages := rasterizePages total skip render
  { fileName := name, pages := pages, selectedPages := defaultSelection pages }

/-- Whether one selection slot is valid for a document: a null slot is
valid, a selected page number must match the `pageNum` of some page of the
same document. -/
def slotValid (f : PDFFile) : Option ℕ → Bool
  | none => true
  | some n => f.pages.any (fun p => p.pageNum == n)

/-- Whether every slot of the selection of a document references a page
present in the document. -/
def selectionValidB (f : PDFFile) : Bool :=
  slotValid f f.selectedPages.left && slotValid f f.selectedPages.center &&
    slotValid f f.selectedPages.right

/-- The `handlePageSelection` update restricted to one document (App.tsx lines
253-259): overwrite one slot of its selection. -/
def handlePageSelection (f : PDFFile) (s : SlotId) (n : ℕ) : PDFFile :=
  { f with selectedPages := f.selectedPages.setSlot s n }

/-- A dropped file before ingestion: its name and MIME type (the model of
the browser `File` as seen by `onDrop`). -/
structure RawFile where
  name : String
  ftype : String
  deriving DecidableEq

/-- The per-file ingestion loop of `onDrop` (App.tsx lines 150-191): a
file whose type is not application/pdf only sets an error message and the
loop continues; an ingestion failure (the catch block) also only sets an
error message and continues; a success pushes the document.  The fallible
pdf.js pipeline is abstracted by the `ingest` argument. -/
def dropIngest (ingest : RawFile → Except String PDFFile)
    (files : List RawFile) : List PDFFile :=
  files.filterMap (fun file =>
    if file.ftype ≠ "application/pdf" then none
    else
      match ingest file with
      | Except.ok d => some d
      | Except.error _ => none)

/-- JS object assignment `m[k] = v` on the output map: overwrite the
binding of k when present, otherwise append it. -/
def insertImg (m : List (String × String)) (k v : String) :
    List (String × String) :=
  match m with
  | [] => [(k, v)]
  | kv :: rest => if kv.1 == k then (k, v) :: rest else kv :: insertImg rest k v

/-- JS `delete m[k]` on the output map: drop the binding of k. -/
def eraseImg (m : List (String × String)) (k : String) :
    List (String × String) :=
  m.filter (fun kv => kv.1 != k)

/-- JS map read `m[k]`. -/
def lookupImg (m : List (String × String)) (k : String) : Option String :=
  (m.find? (fun kv => kv.1 == k)).map Prod.snd

/-- The automatic generation loop of `onDrop` over the newly ingested
documents (App.tsx lines 196-210): each document is composed inside its
own try/catch, a failure only sets an error message and the loop
continues, and a truthy (non-empty) result is recorded under the file
name.  Composition is abstracted by the `gen` argument. -/
def dropAutoGenerate (gen : PDFFile → Except String String)
    (docs : List PDFFile) : List (String × String) :=
  docs.filterMap (fun d =>
    match gen d with
    | Except.ok img => if img.isEmpty then none else some (d.fileName, img)
    | Except.error _ => none)

/-- The `handleGenerateImages` loop (App.tsx lines 276-289): the documents
are composed sequentially with NO per-document error handling, each truthy
result is written into the accumulator map, and only when the whole loop
finishes is the map committed; an exception from `generateMarketingImage`
propagates out, aborting the loop and committing nothing. -/
def handleGenerateImages (gen : PDFFile → Except String String) :
    List PDFFile → List (String × String) → Except String (List (String × String))
  | [], acc => Except.ok acc
  | d :: rest, acc =>
    match gen d with
    | Except.error e => Except.error e
    | Except.ok img =>
      handleGenerateImages gen rest (if img.isEmpty then acc else insertImg acc d.fileName img)

/-- Whether a Response is ok: HTTP status in the 2xx range. -/
def responseOk (status : ℕ) : Bool := 200 ≤ status && status ≤ 299

/-- The message thrown by `handlePdfUrlSubmit` when `response.ok` is false
(App.tsx line 337). -/
def fetchStatusError (status : ℕ) (statusText : String) : String :=
  "Failed to fetch PDF: " ++ toString status ++ " " ++ statusText

/-- The message thrown by `handlePdfUrlSubmit` for a zero-length body
(App.tsx line 349). -/
def emptyBodyError : String := "Downloaded PDF is empty"

/-- Validation of a completed fetch (App.tsx lines 336-350): a non-2xx
status throws the status message, then a zero-length blob throws the
empty-body message. -/
def checkResponse (status : ℕ) (statusText : String) (bodySize : ℕ) :
    Except String Unit :=
  if !responseOk status then Except.error (fetchStatusError status statusText)
  else if bodySize = 0 then Except.error emptyBodyError
  else Except.ok ()

/-- Whether the list sub occurs as a leading segment of the list s. -/
def charsBeginWith : List Char → List Char → Bool
  | [], _ => true
  | _ :: _, [] => false
  | a :: as, b :: bs => a == b && charsBeginWith as bs

/-- Whether the list sub occurs contiguously anywhere inside the second
list. -/
def charsContain (sub : List Char) : List Char → Bool
  | [] => sub.isEmpty
  | c :: rest => charsBeginWith sub (c :: rest) || charsContain sub rest

/-- JS `String.prototype.includes`, on the underlying character lists. -/
def strIncludes (s sub : String) : Bool := charsContain sub.data s.data

/-- The user-facing categories of URL fetch failures (App.tsx lines
360-372). -/
inductive UrlErrorCategory where
  | connectivity
  | emptyPayload
  | wrongContentType
  | forbidden
  | generic
  deriving DecidableEq

/-- The catch-block classifier of `handlePdfUrlSubmit` (App.tsx lines
362-372): the thrown message is tested against the substrings
"Failed to fetch", "empty", "content-type" and "403" in that order,
each category carrying its own user-facing message text. -/
def classifyUrlError (msg : String) : UrlErrorCategory :=
  if strIncludes msg "Failed to fetch" then UrlErrorCategory.connectivity
  else if strIncludes msg "empty" then UrlErrorCategory.emptyPayload
  else if strIncludes msg "content-type" then UrlErrorCategory.wrongContentType
  else if strIncludes msg "403" then UrlErrorCategory.forbidden
  else UrlErrorCategory.generic

/-- A document ingested through the URL path: the fetched blob is wrapped
as `new File([blob], "downloaded.pdf", ...)` (App.tsx line 352), so the
resulting document always carries the fixed name downloaded.pdf. -/
def urlFetchedFile (total : ℕ) (skip : ℕ → Bool) (render : ℕ → String) : PDFFile :=
  ingestDocument "downloaded.pdf" total skip render

/-- The layout parameters held in component state (App.tsx lines 40-42),
with their initial values 400, 15 and 50. -/
structure LayoutParams where
  pageSize : ℚ
  tiltAngle : ℚ
  overlap : ℚ
  deriving DecidableEq

/-- Initial values `useState(400)`, `useState(15)`, `useState(50)` (App.tsx lines 40-42). -/
def initialParams : LayoutParams := ⟨400, 15, 50⟩

/-- One user update of the layout parameters: each parameter is exposed as
a slider (which only emits values inside its configured range) and a
numeric text field whose onChange stores any value that is not NaN
(App.tsx lines 572-643).  A NaN text input is modelled as none. -/
inductive ParamUpdate where
  | sliderPageSize (v : ℚ)
  | textPageSize (v : Option ℚ)
  | sliderTilt (v : ℚ)
  | textTilt (v : Option ℚ)
  | sliderOverlap (v : ℚ)
  | textOverlap (v : Option ℚ)
  deriving DecidableEq

/-- Apply one update: sliders store the emitted value; the text fields run
`if (!isNaN(val)) set...(val)` with no clamping (App.tsx lines 584-587,
610-613, 636-639). -/
def applyUpdate (p : LayoutParams) : ParamUpdate → LayoutParams
  | ParamUpdate.sliderPageSize v => { p with pageSize := v }
  | ParamUpdate.textPageSize none => p
  | ParamUpdate.textPageSize (some v) => { p with pageSize := v }
  | ParamUpdate.sliderTilt v => { p with tiltAngle := v }
  | ParamUpdate.textTilt none => p
  | ParamUpdate.textTilt (some v) => { p with tiltAngle := v }
  | ParamUpdate.sliderOverlap v => { p with overlap := v }
  | ParamUpdate.textOverlap none => p
  | ParamUpdate.textOverlap (some v) => { p with overlap := v }

/-- Apply a sequence of user updates. -/
def applyUpdates (p : LayoutParams) (us : List ParamUpdate) : LayoutParams :=
  us.foldl applyUpdate p

/-- The updates a user can actually produce through the UI: an MUI slider
with min/max only emits values inside its range, while the numeric text
fields accept any non-NaN number. -/
def feasibleUpdate : ParamUpdate → Prop
  | ParamUpdate.sliderPageSize v => 100 ≤ v ∧ v ≤ 600
  | ParamUpdate.sliderTilt v => 0 ≤ v ∧ v ≤ 45
  | ParamUpdate.sliderOverlap v => 0 ≤ v ∧ v ≤ 300
  | _ => True

/-- An update whose value lies inside the range stated for its parameter
(a NaN text input carries no value and is unrestricted). -/
def boundedUpdate : ParamUpdate → Prop
  | ParamUpdate.sliderPageSize v => 100 ≤ v ∧ v ≤ 600
  | ParamUpdate.textPageSize none => True
  | ParamUpdate.textPageSize (some v) => 100 ≤ v ∧ v ≤ 600
  | ParamUpdate.sliderTilt v => 0 ≤ v ∧ v ≤ 45
  | ParamUpdate.textTilt none => True
  | ParamUpdate.textTilt (some v) => 0 ≤ v ∧ v ≤ 45
  | ParamUpdate.sliderOverlap v => 0 ≤ v ∧ v ≤ 300
  | ParamUpdate.textOverlap none => True
  | ParamUpdate.textOverlap (some v) => 0 ≤ v ∧ v ≤ 300

/-- The stated bounds of the three layout parameters: pageSize in
[100, 600], overlap in [0, 300], tiltAngle in [0, 45]. -/
def inBounds (p : LayoutParams) : Prop :=
  (100 ≤ p.pageSize ∧ p.pageSize ≤ 600) ∧ (0 ≤ p.overlap ∧ p.overlap ≤ 300) ∧
    (0 ≤ p.tiltAngle ∧ p.tiltAngle ≤ 45)

/-- The document list and output map slices of the component state
(App.tsx lines 33-34). -/
structure AppState where
  pdfFiles : List PDFFile
  marketingImages : List (String × String)
  deriving DecidableEq

/-- The `removePdf` handler (App.tsx lines 261-274): the document list is filtered by
index (`prev.filter((_, i) => i !== index)`; the model enumerates as
(index, element) pairs), and the output entry keyed by the name of
`prev[index]` is deleted when that element exists (an out-of-range read
yields undefined, which is falsy, leaving the map unchanged). -/
def removePdf (st : AppState) (index : ℕ) : AppState :=
  let newFiles := (st.pdfFiles.enum.filter (fun p => p.1 != index)).map Prod.snd
  let newImages :=
    match st.pdfFiles[index]? with
    | some removedFile => eraseImg st.marketingImages removedFile.fileName
    | none => st.marketingImages
  ⟨newFiles, newImages⟩

/-- Sample pages shared by the concrete instances below. -/
def samplePages : List PDFPage := [⟨1, "p1"⟩, ⟨2, "p2"⟩, ⟨3, "p3"⟩]

/-- A sample document with pages 1-3 and the default selection. -/
def sampleFile : PDFFile := ⟨"report.pdf", samplePages, ⟨some 2, some 1, some 3⟩⟩

/-- A concrete document whose composition fails. -/
def docBad : PDFFile := ⟨"bad.pdf", samplePages, ⟨some 1, some 1, some 1⟩⟩

/-- A concrete document whose composition succeeds. -/
def docGood : PDFFile := ⟨"good.pdf", samplePages, ⟨some 1, some 1, some 1⟩⟩

/-- A concrete composition function failing exactly on bad.pdf, as
`generateMarketingImage` does when the hidden canvas is missing
(App.tsx lines 48-51). -/
def cexGen : PDFFile → Except String String := fun d =>
  if d.fileName = "bad.pdf" then Except.error "Canvas element not found"
  else Except.ok "data:image/png;base64,ok"

/-- A concrete raw PDF file that ingests successfully. -/
def goodRaw : RawFile := ⟨"good.pdf", "application/pdf"⟩

/-- A concrete raw file with corrupt bytes: its ingestion fails. -/
def badRaw : RawFile := ⟨"bad.pdf", "application/pdf"⟩

/-- A concrete ingestion function failing exactly on bad.pdf, as the
pdf.js pipeline does on a corrupt payload (App.tsx lines 187-190). -/
def cexIngest : RawFile → Except String PDFFile := fun f =>
  if f.name = "bad.pdf" then Except.error "Failed to process bad.pdf"
  else Except.ok ⟨f.name, samplePages, defaultSelection samplePages⟩

/-- A concrete app state holding one document and its output. -/
def st0 : AppState := ⟨[sampleFile], [("report.pdf", "imgR")]⟩

/-- First of two documents ingested through the URL path. -/
def dlDoc1 : PDFFile := ⟨"downloaded.pdf", samplePages, defaultSelection samplePages⟩

/-- Second document ingested through the URL path (different content,
same fixed name). -/
def dlDoc2 : PDFFile := ⟨"downloaded.pdf", [⟨1, "q1"⟩], defaultSelection [⟨1, "q1"⟩]⟩

/-- A concrete app state holding the two URL-ingested documents and one
shared output entry. -/
def st1 : AppState := ⟨[dlDoc1, dlDoc2], [("downloaded.pdf", "imgOld")]⟩

/-- C1: for every pageWidth, overlap and tiltAngle the engine computes
pageHeight = pageWidth * 1.5, centerX = 640, centerY = 360 - pageHeight / 2,
the anchors left = (centerX - 1.5 * pageWidth + overlap, centerY),
center = (centerX - pageWidth / 2, centerY),
right = (centerX + pageWidth / 2 - overlap, centerY), and the rotation
angles -tilt, 0, +tilt converted to radians; in particular for
pageWidth = 400, overlap = 100, tilt = 15 the anchors are (140, 60),
(440, 60), (740, 60) with angles -15, 0, +15 degrees. -/
theorem slot_geometry (pw tilt ov : ℚ) :
    (positions pw tilt ov SlotId.left).x = 640 - 1.5 * pw + ov ∧
    (positions pw tilt ov SlotId.center).x = 640 - pw / 2 ∧
    (positions pw tilt ov SlotId.right).x = 640 + pw / 2 - ov ∧
    (∀ s, (positions pw tilt ov s).y = 360 - pw * 1.5 / 2) ∧
    (positions pw tilt ov SlotId.left).angleRad = -(tilt * Real.pi / 180) ∧
    (positions pw tilt ov SlotId.center).angleRad = 0 ∧
    (positions pw tilt ov SlotId.right).angleRad = tilt * Real.pi / 180 ∧
    positions 400 15 100 SlotId.left = ⟨-15 / 180, 140, 60⟩ ∧
    positions 400 15 100 SlotId.center = ⟨0, 440, 60⟩ ∧
    positions 400 15 100 SlotId.right = ⟨15 / 180, 740, 60⟩ := by
  refine ⟨?_, ?_, ?_, ?_, ?_, ?_, ?_,
    by simp only [positions, canvasWidth, canvasHeight, SlotSpot.mk.injEq]; norm_num,
    by simp only [positions, canvasWidth, canvasHeight, SlotSpot.mk.injEq]; norm_num,
    by simp only [positions, canvasWidth, canvasHeight, SlotSpot.mk.injEq]; norm_num⟩
  · simp only [positions, canvasWidth, canvasHeight]
    ring
  · simp only [positions, canvasWidth, canvasHeight]
    ring
  · simp only [positions, canvasWidth, canvasHeight]
    ring
  · intro s
    cases s <;> (simp only [positions, canvasWidth, canvasHeight]; ring)
  · simp only [positions, SlotSpot.angleRad]
    push_cast
    ring
  · simp only [positions, SlotSpot.angleRad]
    push_cast
    ring
  · simp only [positions, SlotSpot.angleRad]
    push_cast
    ring

/-- C2: the engine draws the occupied slots in the fixed order left, then
right, then center (a drawn center page is always the last drawn, hence on
top), and a slot whose selection resolves to no page raster is skipped
while the remaining slots are still drawn. -/
theorem draw_order_spec (f : PDFFile) :
    (drawnSlots f).Sublist drawOrder ∧
    (∀ s, s ∈ drawnSlots f ↔ (resolvePage f s).isSome = true) ∧
    ((resolvePage f SlotId.center).isSome = true →
      (drawnSlots f).getLast? = some SlotId.center) := by
  refine ⟨List.filter_sublist _, ?_, ?_⟩
  · intro s
    rw [drawnSlots, List.mem_filter]
    exact ⟨fun h => h.2, fun h => ⟨by cases s <;> simp [drawOrder], h⟩⟩
  · intro hc
    cases hl : (resolvePage f SlotId.left).isSome <;>
      cases hr : (resolvePage f SlotId.right).isSome <;>
        simp [drawnSlots, drawOrder, hl, hr, hc]

/-- Witness for C2 at a concrete document with all three slots occupied. -/
theorem draw_order_spec_witness :
    (resolvePage sampleFile SlotId.center).isSome = true ∧
    (drawnSlots sampleFile).getLast? = some SlotId.center :=
  ⟨by decide, (draw_order_spec sampleFile).2.2 (by decide)⟩

/-- C3: for a background of positive dimensions, an aspect ratio above
1280/720 yields drawHeight = 720, drawWidth = bgWidth * 720 / bgHeight,
offsetX = (1280 - drawWidth) / 2, offsetY = 0, and otherwise
drawWidth = 1280, drawHeight = bgHeight * 1280 / bgWidth, offsetX = 0,
offsetY = (720 - drawHeight) / 2; in both cases the drawn background
covers the whole 1280 by 720 canvas. -/
theorem background_cover_fit (w h : ℚ) (hw : 0 < w) (hh : 0 < h) :
    ((1280 : ℚ) / 720 < w / h →
      fitBackground w h = ⟨w * 720 / h, 720, (1280 - w * 720 / h) / 2, 0⟩) ∧
    (¬ (1280 : ℚ) / 720 < w / h →
      fitBackground w h = ⟨1280, h * 1280 / w, 0, (720 - h * 1280 / w) / 2⟩) ∧
    1280 ≤ (fitBackground w h).drawWidth ∧
    720 ≤ (fitBackground w h).drawHeight := by
  refine ⟨?_, ?_, ?_⟩
  · intro hc
    simp only [fitBackground, canvasWidth, canvasHeight, if_pos hc, BgFit.mk.injEq]
    refine ⟨by ring, trivial, by ring, trivial⟩
  · intro hc
    simp only [fitBackground, canvasWidth, canvasHeight, if_neg hc, BgFit.mk.injEq]
    refine ⟨trivial, by ring, trivial, by ring⟩
  · by_cases hc : (1280 : ℚ) / 720 < w / h
    · have h1 : (1280 : ℚ) * h < w * 720 := by
        rw [div_lt_div_iff₀ (by norm_num) hh] at hc
        linarith
      have h2 : (1280 : ℚ) ≤ w * 720 / h := (le_div_iff₀ hh).mpr (by linarith)
      simp only [fitBackground, canvasWidth, canvasHeight, if_pos hc]
      refine ⟨by rwa [mul_div_assoc] at h2, le_refl _⟩
    · have h1 : w * 720 ≤ 1280 * h := by
        rw [not_lt] at hc
        rw [div_le_div_iff₀ hh (by norm_num)] at hc
        linarith
      have h2 : (720 : ℚ) ≤ h * 1280 / w := (le_div_iff₀ hw).mpr (by linarith)
      simp only [fitBackground, canvasWidth, canvasHeight, if_neg hc]
      refine ⟨le_refl _, by rwa [mul_div_assoc] at h2⟩

/-- Witness for C3 at a wide background (2000 by 500) with positive
dimensions. -/
theorem background_cover_fit_witness :
    (0 : ℚ) < 2000 ∧ (0 : ℚ) < 500 ∧
    1280 ≤ (fitBackground 2000 500).drawWidth ∧
    720 ≤ (fitBackground 2000 500).drawHeight :=
  ⟨by norm_num, by norm_num,
    (background_cover_fit 2000 500 (by norm_num) (by norm_num)).2.2⟩

/-- C4: for every successfully ingested document with N rasterized pages,
the default selection satisfies center = 1, left = 2 when N is at least 2
and otherwise 1, and right = 3 when N is at least 3, else 2 when N is at
least 2, else 1. -/
theorem default_selection_rule (name : String) (total : ℕ) (skip : ℕ → Bool)
    (render : ℕ → String) :
    (ingestDocument name total skip render).selectedPages.center = some 1 ∧
    (ingestDocument name total skip render).selectedPages.left =
      some (if 2 ≤ (ingestDocument name total skip render).pages.length then 2 else 1) ∧
    (ingestDocument name total skip render).selectedPages.right =
      some (if 3 ≤ (ingestDocument name total skip render).pages.length then 3
        else if 2 ≤ (ingestDocument name total skip render).pages.length then 2 else 1) :=
  ⟨rfl, rfl, rfl⟩

/-- In the Generate loop, when every document before d succeeds, a failure
of d aborts the whole loop with its error, whatever documents follow. -/
theorem handleGenerateImages_error (gen : PDFFile → Except String String)
    (pre : List PDFFile) :
    ∀ (acc : List (String × String)) (d : PDFFile) (post : List PDFFile) (e : String),
      (∀ p ∈ pre, ∃ img, gen p = Except.ok img) → gen d = Except.error e →
      handleGenerateImages gen (pre ++ d :: post) acc = Except.error e := by
  induction pre with
  | nil =>
    intro acc d post e _ hd
    simp [handleGenerateImages, hd]
  | cons p rest ih =>
    intro acc d post e hpre hd
    obtain ⟨img, hok⟩ := hpre p (by simp)
    have hstep : handleGenerateImages gen ((p :: rest) ++ d :: post) acc =
        handleGenerateImages gen (rest ++ d :: post)
          (if img.isEmpty then acc else insertImg acc p.fileName img) := by
      simp [handleGenerateImages, hok]
    rw [hstep]
    exact ih _ d post e (fun q hq => hpre q (by simp [hq])) hd

/-- Counterexample for C5: a composition function that fails on the first
document makes the Generate loop abort, so the second document, whose own
composition succeeds, is never processed and no output map is committed;
the claim that one failure never prevents the remaining documents from
being processed is therefore false on the Generate path. -/
theorem batch_isolation_cex :
    ¬ ∀ (gen : PDFFile → Except String String) (docs : List PDFFile) (d : PDFFile),
        d ∈ docs → (gen d).isOk = true →
        (handleGenerateImages gen docs []).isOk = true := by
  intro hcl
  have h := hcl cexGen [docBad, docGood] docGood (by simp) (by decide)
  exact absurd h (by decide)

/-- C5 amended: on the drop/ingestion path the failure of one file never
prevents a sibling file from being processed to its own outcome: every
PDF-typed file whose ingestion succeeds contributes its document, and
every newly ingested document whose composition succeeds with a truthy
result contributes its output; on the Generate path, by contrast, the
first composition failure aborts the loop and commits nothing. -/
theorem batch_isolation_amended :
    (∀ (ingest : RawFile → Except String PDFFile) (files : List RawFile)
        (f : RawFile) (d : PDFFile),
        f ∈ files → f.ftype = "application/pdf" → ingest f = Except.ok d →
        d ∈ dropIngest ingest files) ∧
    (∀ (gen : PDFFile → Except String String) (docs : List PDFFile)
        (d : PDFFile) (img : String),
        d ∈ docs → gen d = Except.ok img → img.isEmpty = false →
        (d.fileName, img) ∈ dropAutoGenerate gen docs) ∧
    (∀ (gen : PDFFile → Except String String) (pre post : List PDFFile)
        (d : PDFFile) (e : String) (acc : List (String × String)),
        (∀ p ∈ pre, ∃ img, gen p = Except.ok img) → gen d = Except.error e →
        handleGenerateImages gen (pre ++ d :: post) acc = Except.error e) := by
  refine ⟨?_, ?_, ?_⟩
  · intro ingest files f d hf hty hok
    rw [dropIngest, List.mem_filterMap]
    refine ⟨f, hf, ?_⟩
    rw [if_neg (by simp [hty]), hok]
  · intro gen docs d img hd hok hne
    rw [dropAutoGenerate, List.mem_filterMap]
    refine ⟨d, hd, ?_⟩
    rw [hok]
    simp [hne]
  · intro gen pre post d e acc hpre hd
    exact handleGenerateImages_error gen pre acc d post e hpre hd

/-- Witness for C5 amended at concrete batches holding one failing and one
succeeding item. -/
theorem batch_isolation_amended_witness :
    (⟨"good.pdf", samplePages, defaultSelection samplePages⟩ : PDFFile) ∈
      dropIngest cexIngest [badRaw, goodRaw] ∧
    ("good.pdf", "data:image/png;base64,ok") ∈
      dropAutoGenerate cexGen [docBad, docGood] ∧
    handleGenerateImages cexGen ([] ++ docBad :: [docGood]) [] =
      Except.error "Canvas element not found" := by
  refine ⟨?_, ?_, ?_⟩
  · exact batch_isolation_amended.1 cexIngest [badRaw, goodRaw] goodRaw _ (by simp) rfl rfl
  · exact batch_isolation_amended.2.1 cexGen [docBad, docGood] docGood _ (by simp) rfl rfl
  · exact batch_isolation_amended.2.2 cexGen [] [docGood] docBad _ [] (by simp) rfl

/-- C6: a fetch completing with HTTP status 403 throws the message
"Failed to fetch PDF: 403 Forbidden", which the classifier maps to the
connectivity/CORS category rather than the access-forbidden category,
because the "Failed to fetch" substring test runs first and matches the
thrown text; a zero-length body throws "Downloaded PDF is empty", which
is mapped to the empty-payload category as the claim states. -/
theorem url_error_classification :
    checkResponse 403 "Forbidden" 1024 =
      Except.error (fetchStatusError 403 "Forbidden") ∧
    classifyUrlError (fetchStatusError 403 "Forbidden") =
      UrlErrorCategory.connectivity ∧
    classifyUrlError (fetchStatusError 403 "Forbidden") ≠
      UrlErrorCategory.forbidden ∧
    checkResponse 200 "OK" 0 = Except.error emptyBodyError ∧
    classifyUrlError emptyBodyError = UrlErrorCategory.emptyPayload := by
  refine ⟨rfl, by decide, by decide, rfl, by decide⟩

/-- One update whose value lies in the stated range preserves the
parameter bounds. -/
theorem applyUpdate_inBounds (p : LayoutParams) (u : ParamUpdate)
    (hp : inBounds p) (hu : boundedUpdate u) : inBounds (applyUpdate p u) := by
  obtain ⟨hps, hov, hta⟩ := hp
  cases u with
  | sliderPageSize v => exact ⟨hu, hov, hta⟩
  | textPageSize v =>
    cases v with
    | none => exact ⟨hps, hov, hta⟩
    | some v => exact ⟨hu, hov, hta⟩
  | sliderTilt v => exact ⟨hps, hov, hu⟩
  | textTilt v =>
    cases v with
    | none => exact ⟨hps, hov, hta⟩
    | some v => exact ⟨hps, hov, hu⟩
  | sliderOverlap v => exact ⟨hps, hu, hta⟩
  | textOverlap v =>
    cases v with
    | none => exact ⟨hps, hov, hta⟩
    | some v => exact ⟨hps, hu, hta⟩

/-- A sequence of in-range updates preserves the parameter bounds. -/
theorem applyUpdates_inBounds (us : List ParamUpdate) :
    ∀ p, inBounds p → (∀ u ∈ us, boundedUpdate u) →
      inBounds (applyUpdates p us) := by
  induction us with
  | nil => exact fun p hp _ => hp
  | cons u rest ih =>
    intro p hp hus
    exact ih _ (applyUpdate_inBounds p u hp (hus u (by simp)))
      (fun v hv => hus v (by simp [hv]))

/-- Counterexample for C7: typing 1000 into the page-width text field is a
user update the UI accepts (its onChange only rejects NaN and never
clamps), yet it leaves pageSize outside [100, 600]; the claimed invariant
over all user update sequences is therefore false. -/
theorem layout_bounds_cex :
    ¬ ∀ (us : List ParamUpdate), (∀ u ∈ us, feasibleUpdate u) →
        inBounds (applyUpdates initialParams us) := by
  intro hcl
  have h := hcl [ParamUpdate.textPageSize (some 1000)]
    (by
      intro u hu
      simp only [List.mem_singleton] at hu
      subst hu
      exact trivial)
  obtain ⟨⟨_, hle⟩, _⟩ := h
  have hv : (applyUpdates initialParams [ParamUpdate.textPageSize (some 1000)]).pageSize
      = 1000 := rfl
  rw [hv] at hle
  norm_num at hle

/-- C7 amended: the initial layout parameters satisfy the stated bounds,
and every sequence of user updates whose values lie inside the stated
ranges keeps pageSize in [100, 600], overlap in [0, 300] and tiltAngle in
[0, 45]; the numeric text fields, however, store any typed non-NaN value
unclamped, so an out-of-range typed value escapes the bounds. -/
theorem layout_bounds_amended (us : List ParamUpdate)
    (h : ∀ u ∈ us, boundedUpdate u) :
    inBounds (applyUpdates initialParams us) :=
  applyUpdates_inBounds us initialParams
    (by norm_num [inBounds, initialParams]) h

/-- Witness for C7 amended at a concrete in-range update sequence. -/
theorem layout_bounds_amended_witness :
    (∀ u ∈ [ParamUpdate.sliderPageSize 300], boundedUpdate u) ∧
    inBounds (applyUpdates initialParams [ParamUpdate.sliderPageSize 300]) := by
  have hb : ∀ u ∈ [ParamUpdate.sliderPageSize 300], boundedUpdate u := by
    intro u hu
    simp only [List.mem_singleton] at hu
    subst hu
    exact ⟨by norm_num, by norm_num⟩
  exact ⟨hb, layout_bounds_amended [ParamUpdate.sliderPageSize 300] hb⟩

/-- Every page in range that is not skipped appears in the rasterized
page list. -/
theorem mem_rasterizePages (total k : ℕ) (skip : ℕ → Bool) (render : ℕ → String)
    (h1 : 1 ≤ k) (h2 : k ≤ total) (h3 : skip k = false) :
    (⟨k, render k⟩ : PDFPage) ∈ rasterizePages total skip render := by
  rw [rasterizePages, List.mem_filterMap]
  refine ⟨k - 1, ?_, ?_⟩
  · rw [List.mem_range]
    omega
  · rw [show k - 1 + 1 = k from by omega]
    simp [h3]

/-- When no page is skipped, the rasterized list has one page per source
page. -/
theorem length_rasterizePages (total : ℕ) (skip : ℕ → Bool) (render : ℕ → String)
    (h : ∀ n, skip n = false) :
    (rasterizePages total skip render).length = total := by
  rw [rasterizePages]
  have hgen : ∀ l : List ℕ,
      (l.filterMap (fun i =>
        if skip (i + 1) then none
        else some (⟨i + 1, render (i + 1)⟩ : PDFPage))).length = l.length := by
    intro l
    induction l with
    | nil => rfl
    | cons a t ih => simp [List.filterMap_cons, h (a + 1), ih]
  rw [hgen, List.length_range]

/-- Counterexample for C8: when rasterization of page 2 of a three-page
document is skipped, the page list is [1, 3] of length 2, so the seeded
left slot is page 2, which matches no page of the document; the claimed
invariant, stated to hold even when rasterization of some pages was
skipped, is false. -/
theorem selection_invariant_cex :
    ¬ ∀ (name : String) (total : ℕ) (skip : ℕ → Bool) (render : ℕ → String),
        selectionValidB (ingestDocument name total skip render) = true := by
  intro hcl
  exact absurd (hcl "doc.pdf" 3 (fun n => n == 2) (fun n => toString n)) (by decide)

/-- C8 amended: every non-null selection slot references a page of the
same document both right after an ingestion that rasterized all of its at
least one pages, and after any page selection taken from the page menu of
the same document; when rasterization skips a page the seeded defaults are
computed from the count of rasterized pages and may reference a missing
page number. -/
theorem selection_invariant_amended :
    (∀ (name : String) (total : ℕ) (skip : ℕ → Bool) (render : ℕ → String),
        1 ≤ total → (∀ n, skip n = false) →
        selectionValidB (ingestDocument name total skip render) = true) ∧
    (∀ (f : PDFFile) (s : SlotId) (n : ℕ),
        selectionValidB f = true →
        f.pages.any (fun p => p.pageNum == n) = true →
        selectionValidB (handlePageSelection f s n) = true) := by
  constructor
  · intro name total skip render htot hskip
    have hany : ∀ k, 1 ≤ k → k ≤ total →
        (rasterizePages total skip render).any (fun p => p.pageNum == k) = true := by
      intro k hk1 hk2
      rw [List.any_eq_true]
      exact ⟨⟨k, render k⟩,
        mem_rasterizePages total k skip render hk1 hk2 (hskip k), by simp⟩
    have hlen : (rasterizePages total skip render).length = total :=
      length_rasterizePages total skip render hskip
    simp only [selectionValidB, ingestDocument, defaultSelection, slotValid,
      Bool.and_eq_true, hlen]
    refine ⟨⟨?_, ?_⟩, ?_⟩
    · by_cases h2 : 2 ≤ total
      · rw [if_pos h2]
        exact hany 2 (by omega) h2
      · rw [if_neg h2]
        exact hany 1 (by omega) htot
    · exact hany 1 (by omega) htot
    · by_cases h3 : 3 ≤ total
      · rw [if_pos h3]
        exact hany 3 (by omega) h3
      · rw [if_neg h3]
        by_cases h2 : 2 ≤ total
        · rw [if_pos h2]
          exact hany 2 (by omega) h2
        · rw [if_neg h2]
          exact hany 1 (by omega) htot
  · intro f s n hval hany
    rw [selectionValidB, Bool.and_eq_true, Bool.and_eq_true] at hval
    obtain ⟨⟨hl, hc⟩, hr⟩ := hval
    cases s <;>
      simp_all [selectionValidB, handlePageSelection, Selection.setSlot, slotValid]

/-- Witness for C8 amended: a skip-free two-page ingestion satisfies the
invariant, and re-selecting page 3 of the sample document keeps it. -/
theorem selection_invariant_amended_witness :
    selectionValidB (ingestDocument "doc.pdf" 2 (fun _ => false) (fun n => toString n)) = true ∧
    selectionValidB (handlePageSelection sampleFile SlotId.left 3) = true :=
  ⟨selection_invariant_amended.1 "doc.pdf" 2 (fun _ => false) (fun n => toString n)
      (by omega) (fun _ => rfl),
    selection_invariant_amended.2 sampleFile SlotId.left 3 (by decide) (by decide)⟩

/-- Filtering an enumerated list by one removed index, then dropping the
indices, is eraseIdx of the offset index. -/
theorem enumFrom_filter_ne {α : Type} (l : List α) :
    ∀ n i : ℕ, ((List.enumFrom n l).filter (fun p => p.1 != i)).map Prod.snd =
      if i < n then l else l.eraseIdx (i - n) := by
  induction l with
  | nil =>
    intro n i
    simp [List.eraseIdx_nil]
  | cons a t ih =>
    intro n i
    rw [List.enumFrom_cons, List.filter_cons]
    by_cases hni : n = i
    · subst hni
      rw [show ((n, a).1 != n) = false from by simp, if_neg (by simp),
        ih (n + 1) n, if_pos (by omega), if_neg (by omega), Nat.sub_self,
        List.eraseIdx_cons_zero]
    · rw [show ((n, a).1 != i) = true from by simp [hni], if_pos rfl,
        List.map_cons, ih (n + 1) i]
      by_cases hlt : i < n
      · rw [if_pos (by omega), if_pos hlt]
      · rw [if_neg (by omega), if_neg hlt,
          show i - n = i - (n + 1) + 1 from by omega, List.eraseIdx_cons_succ]

/-- The document-list component of removePdf is eraseIdx. -/
theorem removePdf_pdfFiles (st : AppState) (i : ℕ) :
    (removePdf st i).pdfFiles = st.pdfFiles.eraseIdx i := by
  have h := enumFrom_filter_ne st.pdfFiles 0 i
  rw [if_neg (by omega), Nat.sub_zero] at h
  exact h

/-- Looking up a key just deleted from the output map yields nothing. -/
theorem lookupImg_eraseImg (m : List (String × String)) (k : String) :
    lookupImg (eraseImg m k) k = none := by
  induction m with
  | nil => rfl
  | cons kv rest ih =>
    rw [eraseImg, List.filter_cons]
    cases hbk : (kv.1 == k) with
    | true =>
      rw [show (kv.1 != k) = false from by simp [bne, hbk], if_neg (by simp)]
      exact ih
    | false =>
      rw [show (kv.1 != k) = true from by simp [bne, hbk], if_pos rfl,
        lookupImg, List.find?_cons, hbk]
      exact ih

/-- Looking up a key just written into the output map yields the written
value. -/
theorem lookupImg_insertImg (m : List (String × String)) (k v : String) :
    lookupImg (insertImg m k v) k = some v := by
  induction m with
  | nil => simp [insertImg, lookupImg]
  | cons kv rest ih =>
    rw [insertImg]
    cases hbk : (kv.1 == k) with
    | true =>
      rw [if_pos rfl]
      simp [lookupImg]
    | false =>
      rw [if_neg (by simp), lookupImg, List.find?_cons, hbk]
      exact ih

/-- An element sitting at an index other than the erased one survives
eraseIdx. -/
theorem mem_eraseIdx_of_getElem {α : Type} :
    ∀ (l : List α) (i j : ℕ) (a : α), i ≠ j → l[j]? = some a →
      a ∈ l.eraseIdx i := by
  intro l
  induction l with
  | nil =>
    intro i j a _ hj
    simp at hj
  | cons b t ih =>
    intro i j a hij hj
    cases i with
    | zero =>
      cases j with
      | zero => exact absurd rfl hij
      | succ j2 =>
        rw [List.getElem?_cons_succ] at hj
        rw [List.eraseIdx_cons_zero]
        exact List.mem_iff_getElem?.mpr ⟨j2, hj⟩
    | succ i2 =>
      cases j with
      | zero =>
        rw [List.getElem?_cons_zero] at hj
        rw [List.eraseIdx_cons_succ]
        cases hj
        exact List.mem_cons_self b _
      | succ j2 =>
        rw [List.getElem?_cons_succ] at hj
        rw [List.eraseIdx_cons_succ]
        exact List.mem_cons_of_mem b (ih i2 j2 a (by omega) hj)

/-- C9: removing the document at a valid index deletes both that document
and the output keyed to its name; removal at an out-of-range index leaves
the whole state unchanged and repeating it changes nothing either. -/
theorem remove_pdf_spec (st : AppState) (i : ℕ) :
    (∀ h : i < st.pdfFiles.length,
      (removePdf st i).pdfFiles = st.pdfFiles.eraseIdx i ∧
      lookupImg (removePdf st i).marketingImages
        (st.pdfFiles.get ⟨i, h⟩).fileName = none) ∧
    (st.pdfFiles.length ≤ i →
      removePdf st i = st ∧ removePdf (removePdf st i) i = st) := by
  constructor
  · intro h
    refine ⟨removePdf_pdfFiles st i, ?_⟩
    have hsome : st.pdfFiles[i]? = some (st.pdfFiles.get ⟨i, h⟩) := by
      rw [List.getElem?_eq_some_iff]
      exact ⟨h, rfl⟩
    simp only [removePdf, hsome]
    exact lookupImg_eraseImg _ _
  · intro h
    have hnone : st.pdfFiles[i]? = none := List.getElem?_eq_none h
    have hp : (removePdf st i).pdfFiles = st.pdfFiles := by
      rw [removePdf_pdfFiles, List.eraseIdx_eq_self.mpr h]
    have hm : (removePdf st i).marketingImages = st.marketingImages := by
      simp only [removePdf, hnone]
    have h1 : removePdf st i = st :=
      calc removePdf st i
          = ⟨(removePdf st i).pdfFiles, (removePdf st i).marketingImages⟩ := rfl
        _ = ⟨st.pdfFiles, st.marketingImages⟩ := by rw [hp, hm]
        _ = st := rfl
    exact ⟨h1, by rw [h1]; exact h1⟩

/-- Witness for C9 at a concrete one-document state, removing at index 0
and at the out-of-range index 5. -/
theorem remove_pdf_spec_witness :
    ((removePdf st0 0).pdfFiles = st0.pdfFiles.eraseIdx 0 ∧
      lookupImg (removePdf st0 0).marketingImages
        (st0.pdfFiles.get ⟨0, by simp [st0]⟩).fileName = none) ∧
    (removePdf st0 5 = st0 ∧ removePdf (removePdf st0 5) 5 = st0) :=
  ⟨(remove_pdf_spec st0 0).1 (by simp [st0]),
    (remove_pdf_spec st0 5).2 (by simp [st0])⟩

/-- C10: composite outputs are keyed solely by the file name (a document
loaded from a URL always carries the fixed name downloaded.pdf), so two
same-named documents share one output entry: writing the output of one
and then the other leaves only the second image under the shared key, and
removing either document deletes the shared entry even though the other
document remains in the list. -/
theorem shared_output_key (st : AppState) (i j : ℕ) (d1 d2 : PDFFile)
    (img1 img2 : String) (hi : st.pdfFiles[i]? = some d1)
    (hj : st.pdfFiles[j]? = some d2) (hij : i ≠ j)
    (hname : d1.fileName = d2.fileName) :
    (∀ total skip render, (urlFetchedFile total skip render).fileName =
      "downloaded.pdf") ∧
    lookupImg (insertImg (insertImg st.marketingImages d1.fileName img1)
      d2.fileName img2) d1.fileName = some img2 ∧
    lookupImg (removePdf st i).marketingImages d2.fileName = none ∧
    d2 ∈ (removePdf st i).pdfFiles := by
  refine ⟨fun _ _ _ => rfl, ?_, ?_, ?_⟩
  · rw [hname]
    exact lookupImg_insertImg _ _ _
  · simp only [removePdf, hi]
    rw [← hname]
    exact lookupImg_eraseImg _ _
  · rw [removePdf_pdfFiles]
    exact mem_eraseIdx_of_getElem st.pdfFiles i j d2 hij hj

/-- Witness for C10 at a concrete state holding two URL-ingested
documents, both named downloaded.pdf. -/
theorem shared_output_key_witness :
    st1.pdfFiles[0]? = some dlDoc1 ∧ st1.pdfFiles[1]? = some dlDoc2 ∧
    dlDoc1.fileName = dlDoc2.fileName ∧
    lookupImg (insertImg (insertImg st1.marketingImages dlDoc1.fileName "imgA")
      dlDoc2.fileName "imgB") dlDoc1.fileName = some "imgB" ∧
    lookupImg (removePdf st1 0).marketingImages dlDoc2.fileName = none ∧
    dlDoc2 ∈ (removePdf st1 0).pdfFiles := by
  have h := shared_output_key st1 0 1 dlDoc1 dlDoc2 "imgA" "imgB" rfl rfl
    (by omega) rfl
  exact ⟨rfl, rfl, rfl, h.2.1, h.2.2.1, h.2.2.2⟩

end PdfApp

